import Mathlib

/-!
Verification of `BuildResidualDecoder`
(`src/Modules/Utils/.ipynb_checkpoints/BuildResidualDecoder-checkpoint.py`).

The decoder is a configuration-driven factory: at construction it assembles a
list of operations (convolutions, optional batch normalizations, activations,
residual blocks) and wraps them in a sequential model; at forward time it
projects a latent vector through a dense layer, reshapes it to the initial
image shape, runs the assembled pipeline and flattens the result.

We embed the construction routine as a pure function from a configuration to
the assembled operation list (`Option`-valued, since an empty `layers` list
makes the Python code raise `IndexError` at `self.layers[0]`), and we embed
the shape semantics of each operation as a partial shape-transformation
function (`Option`-valued, `none` meaning the underlying tensor library would
raise a shape error).
-/

namespace ResidualDecoder

/-- An activation function object.  The source stores one instantiated
activation (`nn.ReLU()` by default) and reuses it by reference; activations
are stateless, so value equality is the right notion here. -/
inductive Activation where
  | relu
  | custom (id : Nat)
deriving DecidableEq, Repr

/-- One operation appended to the `operations` list in `__init__`.
`residualBlock` records the constructor arguments passed to the external
`ResidualBlock` component (`features`, `activation`, `use_batchnorm`,
`use_preactivation`). -/
inductive Op where
  | conv2d (inChannels outChannels kernelSize stride padding : Nat)
  | batchNorm2d (numFeatures : Nat)
  | activation (a : Activation)
  | residualBlock (features : Nat) (a : Activation) (useBatchnorm usePreact : Bool)
deriving DecidableEq, Repr

/-- The constructor arguments of `BuildResidualDecoder.__init__`. -/
structure Config where
  latent_dim : Nat
  init_shape : Nat × Nat × Nat
  layers : List Nat
  num_res_blocks : Nat
  activation : Option Activation
  use_batchnorm : Bool
  use_preactivations : Bool
deriving DecidableEq, Repr

/-- `init_shape[0]`, the initial channel count. -/
def Config.channels (cfg : Config) : Nat := cfg.init_shape.1

/-- `init_shape[1]`, the initial spatial height. -/
def Config.height (cfg : Config) : Nat := cfg.init_shape.2.1

/-- `init_shape[2]`, the initial spatial width. -/
def Config.width (cfg : Config) : Nat := cfg.init_shape.2.2

/-- `self.activation = activation if activation is not None else nn.ReLU()`. -/
def Config.act (cfg : Config) : Activation := cfg.activation.getD Activation.relu

/-- The dense projection layer built at line 48:
`nn.Linear(in_features=latent_dim, out_features=np.prod(init_shape), bias=True)`. -/
structure LinearLayer where
  in_features : Nat
  out_features : Nat
  bias : Bool
deriving DecidableEq, Repr

/-- `self.init_linear` as constructed in `__init__`. -/
def init_linear (cfg : Config) : LinearLayer :=
  { in_features := cfg.latent_dim
  , out_features := cfg.channels * cfg.height * cfg.width
  , bias := true }

/-- The preprocessing appends (lines 57-74): two 3x3 stride-1 pad-1
convolutions mapping `init_shape[0] -> layers[0] -> layers[0]`, each followed
by an optional `BatchNorm2d` and by the configured activation. -/
def preOps (cfg : Config) (l0 : Nat) : List Op :=
  [Op.conv2d cfg.channels l0 3 1 1]
    ++ (if cfg.use_batchnorm then [Op.batchNorm2d l0] else [])
    ++ [Op.activation cfg.act, Op.conv2d l0 l0 3 1 1]
    ++ (if cfg.use_batchnorm then [Op.batchNorm2d l0] else [])
    ++ [Op.activation cfg.act]

/-- The stage loop (lines 78-99): for each entry `layer` of `layers`, append a
2x2 stride-2 downsampling convolution from the tracked `input_channels` to
`layer`, then `num_res_blocks` residual blocks at `layer` features, then set
`input_channels := layer`.  Returns the appended operations together with the
final value of `input_channels`. -/
def buildStages (inputChannels : Nat) (layers : List Nat) (numRes : Nat)
    (act : Activation) (bn preact : Bool) : List Op × Nat :=
  match layers with
  | [] => ([], inputChannels)
  | layer :: rest =>
      let block : List Op :=
        Op.conv2d inputChannels layer 2 2 0 ::
          List.replicate numRes (Op.residualBlock layer act bn preact)
      let tail := buildStages layer rest numRes act bn preact
      (block ++ tail.1, tail.2)

/-- The full `operations` list assembled by `__init__` (lines 54-110).
Returns `none` when `layers` is empty: line 57 reads `self.layers[0]` and the
constructor raises `IndexError` before any pipeline is assembled.  The final
convolution (line 102) maps the tracked `input_channels` to `latent_dim` with
kernel size `int(init_shape[1] / 2**len(layers))`; Python's `int()` of the
true-division result truncates toward zero, which on naturals is exactly
floor division `height / 2 ^ layers.length`. -/
def buildOperations (cfg : Config) : Option (List Op) :=
  match cfg.layers with
  | [] => none
  | l0 :: rest =>
      let stages := buildStages l0 (l0 :: rest) cfg.num_res_blocks cfg.act
        cfg.use_batchnorm cfg.use_preactivations
      let kernel := cfg.height / 2 ^ (l0 :: rest).length
      some (preOps cfg l0 ++ stages.1
        ++ [Op.conv2d stages.2 cfg.latent_dim kernel 1 0])

/-! ## Shape semantics of the library primitives

Shapes are dimension lists.  Each primitive either produces an output shape or
fails (`none`), modelling the shape errors the tensor library raises. -/

/-- A tensor shape: the list of its dimensions. -/
abbrev Shape := List Nat

/-- Output spatial extent of a convolution along one axis:
`floor((d + 2*padding - kernel) / stride) + 1`. -/
def conv2dOut (kernel stride padding d : Nat) : Nat :=
  (d + 2 * padding - kernel) / stride + 1

/-- Modelled from the spec: the shape behavior of the external
`ResidualBlock` component (`Modules/Layers/ResidualBlock.py`, imported at
line 5 but not included in the sources).  Per the spec's collaborator
contract it produces a shape-preserving transformation, "forward taking and
returning a tensor of identical shape", regardless of its activation,
batch-norm and pre-activation parameters. -/
def residualBlockShape (s : Shape) : Option Shape := some s

/-- Shape behavior of one operation.
`Conv2d` accepts an unbatched `(C, H, W)` or batched `(N, C, H, W)` input with
matching channel count and spatial extent at least the (padded) kernel;
`BatchNorm2d` accepts only a 4-dimensional `(N, C, H, W)` input with matching
channel count and preserves the shape; activations preserve any shape;
residual blocks follow `residualBlockShape`. -/
def opShape : Op → Shape → Option Shape
  | .conv2d ic oc k s p, [c, h, w] =>
      if c = ic ∧ k ≤ h + 2 * p ∧ k ≤ w + 2 * p ∧ 0 < s then
        some [oc, conv2dOut k s p h, conv2dOut k s p w]
      else none
  | .conv2d ic oc k s p, [n, c, h, w] =>
      if c = ic ∧ k ≤ h + 2 * p ∧ k ≤ w + 2 * p ∧ 0 < s then
        some [n, oc, conv2dOut k s p h, conv2dOut k s p w]
      else none
  | .batchNorm2d f, [n, c, h, w] => if c = f then some [n, c, h, w] else none
  | .activation _, s => some s
  | .residualBlock _ _ _ _, s => residualBlockShape s
  | _, _ => none

/-- Shape behavior of `nn.Sequential`: thread the shape through the
operations in order, failing as soon as one operation fails. -/
def runShapes (ops : List Op) (s : Shape) : Option Shape :=
  match ops with
  | [] => some s
  | op :: rest => (opShape op s).bind (runShapes rest)

/-- Shape behavior of `nn.Linear`: applies to the last dimension, which must
equal `in_features`, and replaces it by `out_features`. -/
def linearShape (lin : LinearLayer) (s : Shape) : Option Shape :=
  match s.getLast? with
  | none => none
  | some d =>
      if d = lin.in_features then some (s.dropLast ++ [lin.out_features])
      else none

/-- Shape behavior of `tensor.view(target)`: succeeds exactly when the element
counts agree. -/
def viewShape (target : Shape) (s : Shape) : Option Shape :=
  if target.prod = s.prod then some target else none

/-- Shape behavior of `tensor.view(n, -1)`: `-1` infers the remaining
extent, which must divide the element count evenly (and `n` must be positive
for the inference to be determined). -/
def viewFlatten (n : Nat) (s : Shape) : Option Shape :=
  if 0 < n ∧ n ∣ s.prod then some [n, s.prod / n] else none

/-- Shape behavior of `BuildResidualDecoder.forward` (lines 112-120):
`batch = self.init_linear(batch).view(self.init_shape)` followed by
`batch = self.model(batch).view(len(batch), -1)`.  Note the view target is
the raw `init_shape = (channels, height, width)` with no batch dimension,
and on line 118 `len(batch)` is evaluated before the reassignment, on the
line-115 tensor: it is that tensor's dimension-0 extent (`init_shape[0]`),
not a property of the model output being viewed. -/
def forwardShape (cfg : Config) (s : Shape) : Option Shape := do
  let s1 ← linearShape (init_linear cfg) s
  let s2 ← viewShape [cfg.channels, cfg.height, cfg.width] s1
  let ops ← buildOperations cfg
  let s3 ← runShapes ops s2
  let n ← s2.head?
  viewFlatten n s3

/-! ## Structural characterization of the assembled pipeline -/

/-- Specification view of the stage loop: pairing each stage's target width
with the width of the previous stage (`inCh` for the first stage) and emitting
the downsampling convolution followed by the residual blocks. -/
def stageSpecOps (inCh : Nat) (layers : List Nat) (numRes : Nat)
    (act : Activation) (bn preact : Bool) : List Op :=
  ((inCh :: layers).zip layers).flatMap fun pc =>
    Op.conv2d pc.1 pc.2 2 2 0 ::
      List.replicate numRes (Op.residualBlock pc.2 act bn preact)

theorem buildStages_eq (inCh : Nat) (layers : List Nat) (numRes : Nat)
    (act : Activation) (bn preact : Bool) :
    buildStages inCh layers numRes act bn preact =
      (stageSpecOps inCh layers numRes act bn preact, layers.getLastD inCh) := by
  induction layers generalizing inCh with
  | nil => simp [buildStages, stageSpecOps]
  | cons l rest ih =>
      simp only [buildStages, stageSpecOps, List.zip_cons_cons, List.flatMap_cons,
        ih l, List.getLastD_cons]

theorem buildOperations_eq (cfg : Config) (l0 : Nat) (rest : List Nat)
    (h : cfg.layers = l0 :: rest) :
    buildOperations cfg = some (preOps cfg l0
      ++ stageSpecOps l0 cfg.layers cfg.num_res_blocks cfg.act
          cfg.use_batchnorm cfg.use_preactivations
      ++ [Op.conv2d (cfg.layers.getLastD l0) cfg.latent_dim
            (cfg.height / 2 ^ cfg.layers.length) 1 0]) := by
  simp only [buildOperations, h, buildStages_eq, List.getLastD_cons]

/-! ## Concrete configurations used as test points -/

/-- `latent_dim=8`, `init_shape=(4,8,8)`, `layers=[16,32]`, `num_res_blocks=2`,
default activation and flags. -/
def cfg6 : Config := ⟨8, (4, 8, 8), [16, 32], 2, none, true, true⟩

/-- `cfg6` with `use_batchnorm=False`. -/
def cfg6nb : Config := ⟨8, (4, 8, 8), [16, 32], 2, none, false, true⟩

/-- Height 7 with one downsampling layer: `7` is not divisible by `2^1`. -/
def cfg7h : Config := ⟨1, (1, 7, 7), [4], 2, none, true, true⟩

/-- Empty `layers`, all other fields valid. -/
def cfgEmptyA : Config := ⟨3, (2, 6, 5), [], 1, none, true, true⟩

/-- Empty `layers` with square spatial shape, all other fields valid. -/
def cfgEmptyB : Config := ⟨2, (1, 4, 4), [], 2, none, true, true⟩

/-! ## C1: non-divisible height -/

/-- C1 counterexample: for `init_shape=(1,7,7)` and one layer, `7` is not
divisible by `2^1`, yet construction succeeds — no configuration error is
raised — and the final convolution's kernel size is silently truncated to
`int(7/2) = 3`. -/
theorem c1_counterexample :
    cfg7h.height % 2 ^ cfg7h.layers.length ≠ 0 ∧
    (buildOperations cfg7h).isSome = true ∧
    Option.map (fun ops => ops.getLast?) (buildOperations cfg7h) =
      some (some (Op.conv2d 4 1 3 1 0)) := by decide

/-- C1 (amended): for every configuration with non-empty `layers` and
`2^len(layers) ≤ init_shape[1]`, construction succeeds — whether or not the
divisibility invariant holds — and the final convolution's kernel size is the
truncation `⌊init_shape[1] / 2^len(layers)⌋`; the code never raises a
configuration error for non-divisible heights, it silently truncates. -/
theorem c1_amended (cfg : Config) (l0 : Nat) (rest : List Nat)
    (h : cfg.layers = l0 :: rest)
    (hk : 2 ^ cfg.layers.length ≤ cfg.height) :
    (buildOperations cfg).isSome = true ∧
    ∀ ops, buildOperations cfg = some ops →
      ops.getLast? = some (Op.conv2d (cfg.layers.getLastD l0) cfg.latent_dim
        (cfg.height / 2 ^ cfg.layers.length) 1 0) := by
  rw [buildOperations_eq cfg l0 rest h]
  refine ⟨rfl, fun ops hops => ?_⟩
  cases hops
  simp

/-- C1 witness: the amended statement evaluated at `cfg7h`. -/
theorem c1_witness :
    (buildOperations cfg7h).isSome = true ∧
    ∀ ops, buildOperations cfg7h = some ops →
      ops.getLast? = some (Op.conv2d (cfg7h.layers.getLastD 4) cfg7h.latent_dim
        (cfg7h.height / 2 ^ cfg7h.layers.length) 1 0) :=
  c1_amended cfg7h 4 [] (by decide) (by decide)

/-! ## C2: empty `layers` -/

/-- C2 counterexample: for `layers = []` with every other field valid,
construction does not succeed — line 57 reads `self.layers[0]` while building
the first preprocessing convolution and the constructor raises `IndexError`,
so no pipeline is assembled at all. -/
theorem c2_counterexample : buildOperations cfgEmptyA = none := by decide

/-- C2 (amended): for every configuration with `layers = []`, construction of
`BuildResidualDecoder` fails (an index error from `layers[0]` in the
preprocessing stage); the degenerate configuration is not supported and no
pipeline consisting of preprocessing plus final convolution is produced. -/
theorem c2_amended (cfg : Config) (h : cfg.layers = []) :
    buildOperations cfg = none := by
  simp only [buildOperations, h]

/-- C2 witness: the amended statement evaluated at `cfgEmptyB`. -/
theorem c2_witness : buildOperations cfgEmptyB = none :=
  c2_amended cfgEmptyB (by decide)

/-! ## C5: final convolution under the divisibility invariant -/

/-- C5 counterexample: `cfgEmptyB` satisfies the divisibility invariant
(`4 % 2^0 = 0`), yet construction fails because `layers` is empty, so the
claim's universal quantification over all divisible configurations is false;
moreover its fallback "`layers[0]` when `layers` is empty" is unrealizable. -/
theorem c5_counterexample :
    cfgEmptyB.height % 2 ^ cfgEmptyB.layers.length = 0 ∧
    buildOperations cfgEmptyB = none := by decide

/-- C5 (amended): for every configuration with non-empty `layers` whose
height satisfies the divisibility invariant, construction succeeds and the
final convolution has input channels `layers[-1]`, output channels
`latent_dim`, kernel size the positive integer `init_shape[1] / 2^len(layers)`
(an exact divisor), stride 1 and no padding. -/
theorem c5_amended (cfg : Config) (l0 : Nat) (rest : List Nat)
    (h : cfg.layers = l0 :: rest)
    (hdvd : cfg.height % 2 ^ cfg.layers.length = 0)
    (hpos : 0 < cfg.height) :
    ∃ ops, buildOperations cfg = some ops ∧
      ops.getLast? = some (Op.conv2d (cfg.layers.getLastD l0) cfg.latent_dim
        (cfg.height / 2 ^ cfg.layers.length) 1 0) ∧
      0 < cfg.height / 2 ^ cfg.layers.length ∧
      cfg.height / 2 ^ cfg.layers.length * 2 ^ cfg.layers.length = cfg.height := by
  refine ⟨_, buildOperations_eq cfg l0 rest h, by simp, ?_, ?_⟩
  · exact Nat.div_pos (Nat.le_of_dvd hpos (Nat.dvd_of_mod_eq_zero hdvd))
      (Nat.pos_pow_of_pos _ (by norm_num))
  · exact Nat.div_mul_cancel (Nat.dvd_of_mod_eq_zero hdvd)

/-- C5 witness: the amended statement evaluated at `cfg6`
(`8 / 2^2 = 2`, an exact positive divisor). -/
theorem c5_witness :
    ∃ ops, buildOperations cfg6 = some ops ∧
      ops.getLast? = some (Op.conv2d (cfg6.layers.getLastD 16) cfg6.latent_dim
        (cfg6.height / 2 ^ cfg6.layers.length) 1 0) ∧
      0 < cfg6.height / 2 ^ cfg6.layers.length ∧
      cfg6.height / 2 ^ cfg6.layers.length * 2 ^ cfg6.layers.length = cfg6.height :=
  c5_amended cfg6 16 [32] (by decide) (by decide) (by decide)

/-! ## C6: the concrete pipeline for `latent_dim=8, init_shape=(4,8,8),
layers=[16,32], num_res_blocks=2` -/

/-- The pipeline the spec expects for `cfg6`, written out operation by
operation. -/
def pipeline6 : List Op :=
  [Op.conv2d 4 16 3 1 1,
   Op.batchNorm2d 16,
   Op.activation Activation.relu,
   Op.conv2d 16 16 3 1 1,
   Op.batchNorm2d 16,
   Op.activation Activation.relu,
   Op.conv2d 16 16 2 2 0,
   Op.residualBlock 16 Activation.relu true true,
   Op.residualBlock 16 Activation.relu true true,
   Op.conv2d 16 32 2 2 0,
   Op.residualBlock 32 Activation.relu true true,
   Op.residualBlock 32 Activation.relu true true,
   Op.conv2d 32 8 2 1 0]

/-- C6: the assembled pipeline for `cfg6` is exactly: a 3x3/1/1 convolution
`4 -> 16`, batch norm, activation, a 3x3/1/1 convolution `16 -> 16`, batch
norm, activation (the 2 preprocessing convolutions), then for each of the two
stages one 2x2/2 downsampling convolution followed by 2 residual blocks, then
one final convolution with kernel size `8 / 2^2 = 2`; in particular it
contains, in order, exactly the operations the claim lists. -/
theorem c6_pipeline : buildOperations cfg6 = some pipeline6 := by decide

/-! ## C3: forward-pass output shape -/

/-- C3 (code defect): on input of shape `(1, latent_dim)` the forward pass
does not return a tensor of shape `(1, latent_dim)`.  The view to the raw
`init_shape` drops the batch dimension, so the pipeline runs unbatched: with
batch normalization enabled (the default) `BatchNorm2d` rejects the
3-dimensional tensor and forward fails; with batch normalization disabled the
model output `(8, 1, 1)` is viewed with `len(batch) = init_shape[0] = 4`
(line 118 evaluates `len(batch)` before the reassignment, on the line-115
tensor of shape `init_shape`), so the final result has shape `(4, 2)`. -/
theorem c3_forward_defect :
    forwardShape cfg6 [1, 8] = none ∧
    forwardShape cfg6nb [1, 8] = some [4, 2] ∧
    ([4, 2] : Shape) ≠ [1, 8] := by decide

/-! ## C4: dense projection and reshape -/

/-- C4: the dense projection maps `latent_dim` input features to
`channels*height*width` output features with a learnable bias; on a batch of
shape `(b, latent_dim)` it yields shape `(b, channels*height*width)`; the
subsequent view to the raw `init_shape` `(channels, height, width)` — with no
leading batch dimension — succeeds exactly when `b = 1`; and the forward pass
is the projection and reshape followed by the assembled stages and the final
flatten. -/
theorem c4_projection_then_reshape (cfg : Config) (b : Nat)
    (hpos : 0 < cfg.channels * cfg.height * cfg.width) :
    init_linear cfg =
      ⟨cfg.latent_dim, cfg.channels * cfg.height * cfg.width, true⟩ ∧
    linearShape (init_linear cfg) [b, cfg.latent_dim] =
      some [b, cfg.channels * cfg.height * cfg.width] ∧
    viewShape [cfg.channels, cfg.height, cfg.width]
        [b, cfg.channels * cfg.height * cfg.width] =
      (if b = 1 then some [cfg.channels, cfg.height, cfg.width] else none) ∧
    forwardShape cfg [1, cfg.latent_dim] =
      (buildOperations cfg).bind fun ops =>
        (runShapes ops [cfg.channels, cfg.height, cfg.width]).bind
          (viewFlatten cfg.channels) := by
  have hl : ∀ b2 : Nat, linearShape (init_linear cfg) [b2, cfg.latent_dim] =
      some [b2, cfg.channels * cfg.height * cfg.width] := by
    intro b2
    simp [linearShape, init_linear]
  have hview : ∀ b2 : Nat, viewShape [cfg.channels, cfg.height, cfg.width]
      [b2, cfg.channels * cfg.height * cfg.width] =
      (if b2 = 1 then some [cfg.channels, cfg.height, cfg.width] else none) := by
    intro b2
    have h1 : ([cfg.channels, cfg.height, cfg.width] : List Nat).prod =
        cfg.channels * cfg.height * cfg.width := by simp [mul_assoc]
    have h2 : ([b2, cfg.channels * cfg.height * cfg.width] : List Nat).prod =
        b2 * (cfg.channels * cfg.height * cfg.width) := by simp
    unfold viewShape
    rw [h1, h2]
    by_cases hb : b2 = 1
    · subst hb
      rw [one_mul, if_pos rfl, if_pos rfl]
    · rw [if_neg hb, if_neg]
      intro hc
      exact hb (Nat.eq_of_mul_eq_mul_right hpos (by rw [one_mul]; exact hc)).symm
  refine ⟨rfl, hl b, hview b, ?_⟩
  have h1 := hl 1
  have h2 := hview 1
  rw [if_pos rfl] at h2
  simp [forwardShape, h1, h2]

/-- C4 witness: the statement evaluated at `cfg6` with batch size 2 — the
projection produces shape `(2, 256)` but the reshape to the raw `init_shape`
fails there, while batch size 1 goes through. -/
theorem c4_witness :
    init_linear cfg6 =
      ⟨cfg6.latent_dim, cfg6.channels * cfg6.height * cfg6.width, true⟩ ∧
    linearShape (init_linear cfg6) [2, cfg6.latent_dim] =
      some [2, cfg6.channels * cfg6.height * cfg6.width] ∧
    viewShape [cfg6.channels, cfg6.height, cfg6.width]
        [2, cfg6.channels * cfg6.height * cfg6.width] =
      (if 2 = 1 then some [cfg6.channels, cfg6.height, cfg6.width] else none) ∧
    forwardShape cfg6 [1, cfg6.latent_dim] =
      (buildOperations cfg6).bind fun ops =>
        (runShapes ops [cfg6.channels, cfg6.height, cfg6.width]).bind
          (viewFlatten cfg6.channels) :=
  c4_projection_then_reshape cfg6 2 (by decide)

/-! ## C7: effect of toggling `use_batchnorm` -/

/-- Whether an operation is a `BatchNorm2d` stage. -/
def Op.isBatchNorm : Op → Bool
  | .batchNorm2d _ => true
  | _ => false

/-- Overwrite the `use_batchnorm` flag recorded in a residual block; leaves
every other operation unchanged. -/
def Op.setBatchNorm (b : Bool) : Op → Op
  | .residualBlock f a _ p => .residualBlock f a b p
  | op => op

/-- The pipeline transformation induced by turning `use_batchnorm` off:
drop the `BatchNorm2d` stages and rewrite the flag stored in each residual
block. -/
def removeBatchNorm (ops : List Op) : List Op :=
  (ops.filter fun op => ! op.isBatchNorm).map (Op.setBatchNorm false)

theorem removeBatchNorm_cons (op : Op) (ops : List Op) :
    removeBatchNorm (op :: ops) =
      if op.isBatchNorm then removeBatchNorm ops
      else Op.setBatchNorm false op :: removeBatchNorm ops := by
  by_cases h : op.isBatchNorm <;> simp [removeBatchNorm, List.filter_cons, h]

theorem removeBatchNorm_append (xs ys : List Op) :
    removeBatchNorm (xs ++ ys) = removeBatchNorm xs ++ removeBatchNorm ys := by
  simp [removeBatchNorm, List.filter_append]

theorem removeBatchNorm_replicate_res (n f : Nat) (a : Activation) (b p : Bool) :
    removeBatchNorm (List.replicate n (Op.residualBlock f a b p)) =
      List.replicate n (Op.residualBlock f a false p) := by
  induction n with
  | zero => rfl
  | succ k ih =>
      simp [List.replicate_succ, removeBatchNorm_cons, Op.isBatchNorm,
        Op.setBatchNorm, ih]

theorem removeBatchNorm_flatChunks (pcs : List (Nat × Nat)) (n : Nat)
    (act : Activation) (p : Bool) :
    removeBatchNorm (pcs.flatMap fun pc => Op.conv2d pc.1 pc.2 2 2 0 ::
        List.replicate n (Op.residualBlock pc.2 act true p)) =
      pcs.flatMap fun pc => Op.conv2d pc.1 pc.2 2 2 0 ::
        List.replicate n (Op.residualBlock pc.2 act false p) := by
  induction pcs with
  | nil => rfl
  | cons pc rest ih =>
      rw [List.flatMap_cons, List.flatMap_cons, removeBatchNorm_append, ih]
      rw [removeBatchNorm_cons]
      simp [Op.isBatchNorm, Op.setBatchNorm, removeBatchNorm_replicate_res]

theorem removeBatchNorm_stageSpec (inCh : Nat) (layers : List Nat) (n : Nat)
    (act : Activation) (p : Bool) :
    removeBatchNorm (stageSpecOps inCh layers n act true p) =
      stageSpecOps inCh layers n act false p := by
  simpa [stageSpecOps] using
    removeBatchNorm_flatChunks ((inCh :: layers).zip layers) n act p

theorem opShape_setBatchNorm (b : Bool) (op : Op) (s : Shape) :
    opShape (Op.setBatchNorm b op) s = opShape op s := by
  cases op <;> rfl

theorem opShape_batchNorm (f : Nat) (s t : Shape)
    (h : opShape (Op.batchNorm2d f) s = some t) : t = s := by
  match s with
  | [] => simp [opShape] at h
  | [a] => simp [opShape] at h
  | [a, b] => simp [opShape] at h
  | [a, b, c] => simp [opShape] at h
  | [a, b, c, d] =>
      by_cases hc : b = f
      · rw [hc]
        simp [opShape, hc] at h
        exact h.symm
      · simp [opShape, hc] at h
  | a :: b :: c :: d :: e :: rest => simp [opShape] at h

theorem runShapes_removeBatchNorm (ops : List Op) :
    ∀ s r : Shape, runShapes ops s = some r →
      runShapes (removeBatchNorm ops) s = some r := by
  induction ops with
  | nil => intro s r h; exact h
  | cons op rest ih =>
      intro s r h
      rw [runShapes] at h
      obtain ⟨s1, hop, hrest⟩ := Option.bind_eq_some.mp h
      rw [removeBatchNorm_cons]
      by_cases hbn : op.isBatchNorm
      · rw [if_pos hbn]
        cases op with
        | batchNorm2d f =>
            have hs : s1 = s := opShape_batchNorm f s s1 hop
            subst hs
            exact ih _ r hrest
        | conv2d a b c d e => simp [Op.isBatchNorm] at hbn
        | activation a => simp [Op.isBatchNorm] at hbn
        | residualBlock a b c d => simp [Op.isBatchNorm] at hbn
      · rw [if_neg hbn, runShapes, opShape_setBatchNorm, hop]
        exact ih s1 r hrest

/-- Configuration used to separate the two `use_batchnorm` settings. -/
def cfg7T : Config := ⟨2, (1, 4, 4), [3], 1, none, true, true⟩

/-- `cfg7T` with `use_batchnorm=False`. -/
def cfg7F : Config := ⟨2, (1, 4, 4), [3], 1, none, false, true⟩

/-- C7 counterexample: toggling `use_batchnorm` off does not leave "every
remaining stage identical": dropping exactly the `BatchNorm2d` entries from
the `use_batchnorm=True` pipeline does not give the `use_batchnorm=False`
pipeline, because the flag is also passed to every residual block (line 95)
and the residual blocks are therefore constructed differently. -/
theorem c7_counterexample :
    buildOperations cfg7F ≠
      Option.map (List.filter fun op => ! op.isBatchNorm)
        (buildOperations cfg7T) := by decide

/-- C7 (amended): toggling `use_batchnorm` from true to false removes exactly
the `BatchNorm2d` stages (all of which sit in the preprocessing block) and
rewrites the batch-norm flag passed to each residual block; every other stage
is identical and in the same relative order.  Moreover the removal cannot
change any tensor shape: whenever the `use_batchnorm=True` pipeline threads a
shape to a result, the transformed pipeline threads the same shape to the
same result, since `BatchNorm2d` preserves the shape wherever it is defined
and a residual block's shape behavior ignores the flag. -/
theorem c7_amended (cfg : Config) :
    buildOperations { cfg with use_batchnorm := false } =
      Option.map removeBatchNorm (buildOperations { cfg with use_batchnorm := true }) ∧
    ∀ ops : List Op, ∀ s r : Shape, runShapes ops s = some r →
      runShapes (removeBatchNorm ops) s = some r := by
  refine ⟨?_, fun ops s r h => runShapes_removeBatchNorm ops s r h⟩
  obtain ⟨ld, ish, lys, nrb, actv, bn, pre⟩ := cfg
  cases lys with
  | nil => simp [buildOperations]
  | cons l0 rest =>
      rw [buildOperations_eq ⟨ld, ish, l0 :: rest, nrb, actv, false, pre⟩ l0 rest rfl,
        buildOperations_eq ⟨ld, ish, l0 :: rest, nrb, actv, true, pre⟩ l0 rest rfl]
      simp only [Option.map_some', Config.act, Config.channels, Config.height]
      rw [removeBatchNorm_append, removeBatchNorm_append]
      have h1 : removeBatchNorm (preOps ⟨ld, ish, l0 :: rest, nrb, actv, true, pre⟩ l0)
          = preOps ⟨ld, ish, l0 :: rest, nrb, actv, false, pre⟩ l0 := by
        simp [preOps, Op.isBatchNorm, Op.setBatchNorm, Config.act,
          Config.channels, removeBatchNorm]
      have h2 : removeBatchNorm
            (stageSpecOps l0 (l0 :: rest) nrb (actv.getD Activation.relu) true pre)
          = stageSpecOps l0 (l0 :: rest) nrb (actv.getD Activation.relu) false pre :=
        removeBatchNorm_stageSpec _ _ _ _ _
      have h3 : ∀ a b c : Nat,
          removeBatchNorm [Op.conv2d a b c 1 0] = [Op.conv2d a b c 1 0] := by
        intro a b c
        simp [removeBatchNorm, Op.isBatchNorm, Op.setBatchNorm]
      rw [h1, h2, h3]

/-- C7 witness: the amended statement at `cfg7T`, with the shape-preservation
part applied to a concrete pipeline and input shape. -/
theorem c7_witness :
    (buildOperations { cfg7T with use_batchnorm := false } =
      Option.map removeBatchNorm
        (buildOperations { cfg7T with use_batchnorm := true })) ∧
    runShapes (removeBatchNorm [Op.batchNorm2d 2, Op.activation Activation.relu])
      [1, 2, 4, 4] = some [1, 2, 4, 4] :=
  ⟨(c7_amended cfg7T).1,
   (c7_amended cfg7T).2 [Op.batchNorm2d 2, Op.activation Activation.relu]
     [1, 2, 4, 4] [1, 2, 4, 4] (by decide)⟩

/-! ## C8: channel bookkeeping -/

/-- C8: for every configuration with non-empty `layers` the assembled
pipeline decomposes as preprocessing, then the stage operations obtained by
zipping each stage's width with the previous stage's width
(`layers[0]` paired with itself for the first stage, matching the
preprocessing output), then the final convolution; each stage's downsampling
convolution maps the previous width to `layers[i]`, its residual blocks all
operate at `layers[i]` features, and the channel count tracked by the loop
ends at `layers[-1]`, which is the final convolution's input width. -/
theorem c8_channel_bookkeeping (cfg : Config) (l0 : Nat) (rest : List Nat)
    (h : cfg.layers = l0 :: rest) :
    buildOperations cfg = some (preOps cfg l0
      ++ stageSpecOps l0 cfg.layers cfg.num_res_blocks cfg.act
          cfg.use_batchnorm cfg.use_preactivations
      ++ [Op.conv2d (cfg.layers.getLastD l0) cfg.latent_dim
            (cfg.height / 2 ^ cfg.layers.length) 1 0]) ∧
    (buildStages l0 cfg.layers cfg.num_res_blocks cfg.act cfg.use_batchnorm
        cfg.use_preactivations).2 = cfg.layers.getLastD l0 :=
  ⟨buildOperations_eq cfg l0 rest h, by rw [buildStages_eq]⟩

/-- C8 witness: the decomposition evaluated at `cfg6`. -/
theorem c8_witness :
    buildOperations cfg6 = some (preOps cfg6 16
      ++ stageSpecOps 16 cfg6.layers cfg6.num_res_blocks cfg6.act
          cfg6.use_batchnorm cfg6.use_preactivations
      ++ [Op.conv2d (cfg6.layers.getLastD 16) cfg6.latent_dim
            (cfg6.height / 2 ^ cfg6.layers.length) 1 0]) ∧
    (buildStages 16 cfg6.layers cfg6.num_res_blocks cfg6.act cfg6.use_batchnorm
        cfg6.use_preactivations).2 = cfg6.layers.getLastD 16 :=
  c8_channel_bookkeeping cfg6 16 [32] (by decide)

/-! ## C9: downsampling convolutions halve even spatial extents -/

theorem mem_buildStages (inCh : Nat) (layers : List Nat) (numRes : Nat)
    (act : Activation) (bn preact : Bool) (op : Op)
    (h : op ∈ (buildStages inCh layers numRes act bn preact).1) :
    (∃ a b, op = Op.conv2d a b 2 2 0) ∨
    (∃ f, op = Op.residualBlock f act bn preact) := by
  induction layers generalizing inCh with
  | nil => simp [buildStages] at h
  | cons l rest ih =>
      simp only [buildStages, List.cons_append, List.mem_cons,
        List.mem_append] at h
      rcases h with h | h
      · exact Or.inl ⟨inCh, l, h⟩
      rcases h with h | h
      · exact Or.inr ⟨l, List.eq_of_mem_replicate h⟩
      · exact ih l h

/-- C9: every downsampling convolution appended by the stage loop has kernel
2, stride 2 and no padding, and on any (batched) input with matching channels
and even positive spatial height and width it produces output spatial extents
exactly half the input's. -/
theorem c9_downsample_halves (inCh : Nat) (layers : List Nat) (numRes : Nat)
    (act : Activation) (bn preact : Bool) (ic oc k st pd : Nat)
    (hmem : Op.conv2d ic oc k st pd ∈
      (buildStages inCh layers numRes act bn preact).1)
    (n h w : Nat) (hh : h % 2 = 0) (hw : w % 2 = 0)
    (hhp : 0 < h) (hwp : 0 < w) :
    k = 2 ∧ st = 2 ∧ pd = 0 ∧
    opShape (Op.conv2d ic oc k st pd) [n, ic, h, w] =
      some [n, oc, h / 2, w / 2] := by
  rcases mem_buildStages inCh layers numRes act bn preact _ hmem with
    ⟨a, b, heq⟩ | ⟨f, heq⟩
  · injection heq with e1 e2 e3 e4 e5
    subst e3; subst e4; subst e5
    refine ⟨rfl, rfl, rfl, ?_⟩
    have e1 : conv2dOut 2 2 0 h = h / 2 := by unfold conv2dOut; omega
    have e2 : conv2dOut 2 2 0 w = w / 2 := by unfold conv2dOut; omega
    show (if ic = ic ∧ 2 ≤ h + 2 * 0 ∧ 2 ≤ w + 2 * 0 ∧ 0 < 2 then
        some [n, oc, conv2dOut 2 2 0 h, conv2dOut 2 2 0 w] else none) =
      some [n, oc, h / 2, w / 2]
    rw [if_pos ⟨rfl, by omega, by omega, by omega⟩, e1, e2]
  · simp at heq

/-- C9 witness: the downsampling convolution of the single stage of
`layers=[4]` halves an `8 x 8` input. -/
theorem c9_witness :
    (2 : Nat) = 2 ∧ (2 : Nat) = 2 ∧ (0 : Nat) = 0 ∧
    opShape (Op.conv2d 4 4 2 2 0) [1, 4, 8, 8] = some [1, 4, 4, 4] :=
  c9_downsample_halves 4 [4] 2 Activation.relu true true 4 4 2 2 0
    (by decide) 1 8 8 (by decide) (by decide) (by decide) (by decide)

/-! ## C10: default activation -/

/-- C10: when no activation is supplied (`activation=None`), the decoder
defaults to ReLU, and ReLU is the activation appearing after both
preprocessing convolutions and the activation passed to every residual block
of the assembled pipeline.  (The source reuses one instantiated `nn.ReLU()`
object by reference; activations are stateless, so object identity and value
equality coincide here.) -/
theorem c10_default_relu (cfg : Config) (hact : cfg.activation = none)
    (ops : List Op) (hops : buildOperations cfg = some ops) :
    (∀ a, Op.activation a ∈ ops → a = Activation.relu) ∧
    (∀ f a b p, Op.residualBlock f a b p ∈ ops → a = Activation.relu) := by
  have hca : cfg.act = Activation.relu := by simp [Config.act, hact]
  cases hl : cfg.layers with
  | nil => simp [buildOperations, hl] at hops
  | cons l0 rest =>
      rw [buildOperations_eq cfg l0 rest hl] at hops
      have hops2 : ops = preOps cfg l0
          ++ stageSpecOps l0 cfg.layers cfg.num_res_blocks cfg.act
              cfg.use_batchnorm cfg.use_preactivations
          ++ [Op.conv2d (cfg.layers.getLastD l0) cfg.latent_dim
                (cfg.height / 2 ^ cfg.layers.length) 1 0] :=
        (Option.some_inj.mp hops).symm
      subst hops2
      have hstage : ∀ op, op ∈ stageSpecOps l0 cfg.layers cfg.num_res_blocks
          cfg.act cfg.use_batchnorm cfg.use_preactivations →
          (∃ a b, op = Op.conv2d a b 2 2 0) ∨
          (∃ f, op = Op.residualBlock f cfg.act cfg.use_batchnorm
            cfg.use_preactivations) := by
        intro op hop
        apply mem_buildStages l0 cfg.layers cfg.num_res_blocks cfg.act
          cfg.use_batchnorm cfg.use_preactivations op
        rw [buildStages_eq]
        exact hop
      constructor
      · intro a hmem
        simp only [List.mem_append, List.mem_cons, List.not_mem_nil,
          or_false] at hmem
        rcases hmem with hmem | hmem
        rcases hmem with hmem | hmem
        · by_cases hbn : cfg.use_batchnorm <;>
            simp [preOps, hbn, hca] at hmem <;> exact hmem
        · rcases hstage _ hmem with ⟨x, y, hx⟩ | ⟨f, hx⟩ <;> simp at hx
        · simp at hmem
      · intro f a b p hmem
        simp only [List.mem_append, List.mem_cons, List.not_mem_nil,
          or_false] at hmem
        rcases hmem with hmem | hmem
        rcases hmem with hmem | hmem
        · by_cases hbn : cfg.use_batchnorm <;> simp [preOps, hbn] at hmem
        · rcases hstage _ hmem with ⟨x, y, hx⟩ | ⟨g, hx⟩
          · exact absurd hx (by simp)
          · rw [hca] at hx
            injection hx
        · simp at hmem

/-- C10 witness: the property evaluated on the concrete pipeline of `cfg6`,
whose `activation` field is `None`. -/
theorem c10_witness :
    (∀ a, Op.activation a ∈ pipeline6 → a = Activation.relu) ∧
    (∀ f a b p, Op.residualBlock f a b p ∈ pipeline6 → a = Activation.relu) :=
  c10_default_relu cfg6 rfl pipeline6 (by decide)

end ResidualDecoder
